import Mathlib

/-!
Verification of the Scratchpad shader-description front end.

Shallow embedding of:
* the OGSFX document model and code generator
  (src/addon/parsers/ogsfx/shaderdata.py, src/addon/parsers/ogsfx/parser.py);
* the embedded-code ("glsl" exclusive state) sub-lexer
  (src/shaders/ogsfx_future/lexer.py, src/shaders/scribble/lexer.py);
* the GLSL loader with include recursion guard (src/addon/loader/glsl.py);
* the include/define preprocessor (src/shaders/glsl/preprocessor.py; the
  pcpp machinery it subclasses is not part of the repository source tree,
  so that machinery is modelled from the specification).

Python dynamic errors (raise Exception, AttributeError) are embedded as
`Except` with an error inductive whose constructors carry the message text.
-/

set_option maxRecDepth 8000

namespace Scratchpad

deriving instance DecidableEq for Except

/-! ## OGSFX document model (src/addon/parsers/ogsfx/shaderdata.py)

Fields that no verified operation reads (annotation lists, uniform
constant values, sampler states) are omitted from the structures; every
field the code generator or a lookup helper touches is present.
-/

/-- Errors raised by the document model.  Python raises plain `Exception`
with a formatted message; the constructors mirror the distinct messages
(`shaderdata.py` lines 332, 339, 346) plus the dynamic `AttributeError`. -/
inductive OgsfxError where
  /-- Python raise `Exception('No GLSLShader named {}')` -/
  | noGLSLShader (name : String)
  /-- Python raise `Exception('No attribute named {}')` -/
  | noAttribute (name : String)
  /-- Python raise `Exception('No technique named {}')` -/
  | noTechnique (name : String)
  /-- a Python `AttributeError`: a missing attribute on an object -/
  | attributeError (msg : String)
  deriving DecidableEq, Repr

/-- Source `vec4 position : POSITION;` — shaderdata.py class VaryingAttribute. -/
structure VaryingAttribute where
  type_specifier : String
  name : String
  input_specifier : String
  deriving DecidableEq, Repr

/-- Source `attribute APPDATA { ... };` — shaderdata.py class VertexStream.
Note: a VertexStream has NO `input_specifier` field of its own. -/
structure VertexStream where
  name : String
  attributes : List VaryingAttribute
  deriving DecidableEq, Repr

/-- Source `GLSLShader foo { ... }` — shaderdata.py class GLSLSource. -/
structure GLSLSource where
  name : String
  code : String
  deriving DecidableEq, Repr

/-- Source `in APPDATA vsin` / `in APPDATA` — shaderdata.py class StageArgument.
`name` is `None` in the untyped parser production (parser.py
p_stage_argument_untyped). -/
structure StageArgument where
  type_qualifier : String
  attribute_name : String
  name : Option String
  deriving DecidableEq, Repr

/-- Source `VertexShader(in APPDATA vsin, out V2F vsout) = { Foo, Bar }` —
shaderdata.py class Stage. -/
structure Stage where
  name : String
  in_arg : StageArgument
  out_arg : StageArgument
  shader_ids : List String
  deriving DecidableEq, Repr

/-- Source `pass p0 < ... > { ... }` — shaderdata.py class Pass (annotations
omitted: unused by the verified operations). -/
structure Pass where
  name : String
  stages : List Stage
  deriving DecidableEq, Repr

/-- Source `Pass.find_stage`: first stage with the given name, `None` if absent
(shaderdata.py lines 162-166). -/
def Pass.find_stage (p : Pass) (name : String) : Option Stage :=
  p.stages.find? (fun stage => stage.name == name)

/-- Source `technique Main < ... > { ... }` — shaderdata.py class Technique. -/
structure Technique where
  name : String
  passes : List Pass
  deriving DecidableEq, Repr

/-- Source `uniform gMVP : WorldViewProjection < ... > = constant;` —
shaderdata.py class Uniform (annotations and constant value omitted:
unused by the verified operations). -/
structure Uniform where
  type_specifier : String
  name : String
  «alias» : Option String
  deriving DecidableEq, Repr

/-- The OGSFX document — shaderdata.py class OGSFXShader.  `defines`
is a Python dict (insertion-ordered, string keys); values may be `None`
(`value or ''` in get_defines_as_glsl), hence `Option String`. -/
structure OGSFXShader where
  uniforms : List Uniform
  attributes : List VertexStream
  techniques : List Technique
  glsl : List GLSLSource
  defines : List (String × Option String)
  deriving DecidableEq, Repr

/-- Source `OGSFXShader.__init__` (shaderdata.py lines 212-219): empty
collections, defines pre-seeded with `{'DEBUG': '1'}`. -/
def OGSFXShader.init : OGSFXShader :=
  { uniforms := []
  , attributes := []
  , techniques := []
  , glsl := []
  , defines := [("DEBUG", some "1")] }

/-- A top-level block produced by the grammar (parser.py: p_block /
p_block_glsl): exactly a Uniform, VertexStream, Technique or GLSLSource. -/
inductive Block where
  | uniform (u : Uniform)
  | stream (s : VertexStream)
  | technique (t : Technique)
  | glsl (g : GLSLSource)
  deriving DecidableEq, Repr

/-- Source `OGSFXShader.set_blocks` (shaderdata.py lines 228-241): dispatch each
block to its collection, in order.  The Python `else: raise` branch is
unreachable for parser output, which only builds the four block kinds. -/
def OGSFXShader.set_blocks (doc : OGSFXShader) : List Block → OGSFXShader
  | [] => doc
  | .uniform u :: rest => set_blocks { doc with uniforms := doc.uniforms ++ [u] } rest
  | .stream s :: rest => set_blocks { doc with attributes := doc.attributes ++ [s] } rest
  | .technique t :: rest => set_blocks { doc with techniques := doc.techniques ++ [t] } rest
  | .glsl g :: rest => set_blocks { doc with glsl := doc.glsl ++ [g] } rest

/-- The start production `p_shader` (parser.py lines 10-14): build an
`OGSFXShader` and install the parsed block list.  Total: parsing performs
no name resolution, so a structurally valid block list always yields a
document. -/
def p_shader (blocks : List Block) : OGSFXShader :=
  OGSFXShader.init.set_blocks blocks

/-- Source `OGSFXShader.find_glsl_source` (shaderdata.py lines 327-332). -/
def OGSFXShader.find_glsl_source (doc : OGSFXShader) (name : String) :
    Except OgsfxError GLSLSource :=
  match doc.glsl.find? (fun g => g.name == name) with
  | some g => .ok g
  | none => .error (.noGLSLShader name)

/-- Source `OGSFXShader.find_vertex_stream` (shaderdata.py lines 334-339). -/
def OGSFXShader.find_vertex_stream (doc : OGSFXShader) (name : String) :
    Except OgsfxError VertexStream :=
  match doc.attributes.find? (fun s => s.name == name) with
  | some s => .ok s
  | none => .error (.noAttribute name)

/-- Source `OGSFXShader.find_technique` (shaderdata.py lines 341-346). -/
def OGSFXShader.find_technique (doc : OGSFXShader) (name : String) :
    Except OgsfxError Technique :=
  match doc.techniques.find? (fun t => t.name == name) with
  | some t => .ok t
  | none => .error (.noTechnique name)

/-- Source `OGSFXShader.find_uniforms` (shaderdata.py lines 348-350). -/
def OGSFXShader.find_uniforms (doc : OGSFXShader) (a : Option String) :
    List Uniform :=
  doc.uniforms.filter (fun u => u.«alias» == a)

/-- Source `OGSFXShader.find_attributes` (shaderdata.py lines 352-354):
`[a for a in self.attributes if a.input_specifier == input_specifier]`.
`self.attributes` is the list of `VertexStream`s, and `VertexStream` has
no `input_specifier` attribute, so evaluating the comprehension on the
first stream raises `AttributeError`; only an empty stream list returns
(the empty list). -/
def OGSFXShader.find_attributes (doc : OGSFXShader) (_input_specifier : String) :
    Except OgsfxError (List VaryingAttribute) :=
  match doc.attributes with
  | [] => .ok []
  | _ :: _ =>
    .error (.attributeError "VertexStream object has no attribute input_specifier")

/-- What the spec states `find_attributes` does ("find all
VaryingAttributes across all streams matching a given input semantic").
Modelled from the spec for comparison with the source function above. -/
def find_attributes_spec (doc : OGSFXShader) (input_specifier : String) :
    List VaryingAttribute :=
  (doc.attributes.flatMap (fun s => s.attributes)).filter
    (fun a => a.input_specifier == input_specifier)

/-! ## Code generator (shaderdata.py lines 243-325) -/

/-- Source `OGSFXShader.get_uniforms_as_glsl` (shaderdata.py lines 243-253):
one `uniform <type> <name>;` line per uniform, declaration order. -/
def OGSFXShader.get_uniforms_as_glsl (doc : OGSFXShader) : String :=
  doc.uniforms.foldl
    (fun code u => code ++ "uniform " ++ u.type_specifier ++ " " ++ u.name ++ ";\n")
    ""

/-- Source `OGSFXShader.get_defines_as_glsl` (shaderdata.py lines 255-263):
one `#define <key> <value>` line per entry, insertion order; a `None`
value prints as the empty string (`value or ''`). -/
def OGSFXShader.get_defines_as_glsl (doc : OGSFXShader) : String :=
  doc.defines.foldl
    (fun code kv => code ++ "#define " ++ kv.1 ++ " " ++ kv.2.getD "" ++ "\n")
    ""

/-- Source `OGSFXShader.get_stage_argument_as_glsl` (shaderdata.py lines
265-289): resolve the argument's vertex stream; without a binding name
emit each attribute as a direct `in/out` declaration, with one emit an
interface block wrapping the stream's attributes. -/
def OGSFXShader.get_stage_argument_as_glsl (doc : OGSFXShader) (arg : StageArgument) :
    Except OgsfxError String :=
  match doc.find_vertex_stream arg.attribute_name with
  | .error e => .error e
  | .ok vs =>
    match arg.name with
    | none =>
      .ok (vs.attributes.foldl
        (fun shader attr =>
          shader ++ arg.type_qualifier ++ " " ++ attr.type_specifier ++ " " ++
            attr.name ++ ";\n")
        "")
    | some bind =>
      .ok ((vs.attributes.foldl
        (fun shader attr =>
          shader ++ "    " ++ attr.type_specifier ++ " " ++ attr.name ++ ";\n")
        (arg.type_qualifier ++ " " ++ arg.attribute_name ++ " \x7b\n"))
        ++ "\x7d " ++ bind ++ ";\n")

/-- The inner loop `for name in stage.shader_ids: shader += glsl.code`
of `get_glsl` (shaderdata.py lines 317-319): resolve each named block
and append its code to the accumulated shader text; the first missing
name aborts. -/
def OGSFXShader.concat_sources (doc : OGSFXShader) :
    List String → String → Except OgsfxError String
  | [], shader => .ok shader
  | n :: rest, shader =>
    match doc.find_glsl_source n with
    | .error e => .error e
    | .ok g => doc.concat_sources rest (shader ++ g.code)

/-- The body of `get_glsl`'s per-pass loop (shaderdata.py lines 302-323):
`None` when the pass has no stage of the requested name, otherwise the
version line, defines, uniforms, the two stage-argument declarations and
the concatenated named sources. -/
def OGSFXShader.get_glsl_pass (doc : OGSFXShader) (stage_name : String) (pss : Pass) :
    Except OgsfxError (Option String) :=
  match pss.find_stage stage_name with
  | none => .ok none
  | some stage =>
    match doc.get_stage_argument_as_glsl stage.in_arg with
    | .error e => .error e
    | .ok io_in =>
      match doc.get_stage_argument_as_glsl stage.out_arg with
      | .error e => .error e
      | .ok io_out =>
        match doc.concat_sources stage.shader_ids
            ("#version 420 core\n" ++ doc.get_defines_as_glsl ++
              doc.get_uniforms_as_glsl ++ io_in ++ io_out) with
        | .error e => .error e
        | .ok shader => .ok (some shader)

/-- Python dict assignment `passes[pss.name] = v`: an existing key keeps
its position and gets the new value, a fresh key is appended. -/
def dict_set (m : List (String × Option String)) (k : String) (v : Option String) :
    List (String × Option String) :=
  if m.any (fun kv => kv.1 == k) then
    m.map (fun kv => if kv.1 == k then (k, v) else kv)
  else
    m ++ [(k, v)]

/-- The `for pss in technique.passes` loop of `get_glsl` (shaderdata.py
lines 302-323), accumulating the `passes` dict. -/
def OGSFXShader.get_glsl_passes (doc : OGSFXShader) (stage_name : String) :
    List Pass → List (String × Option String) →
    Except OgsfxError (List (String × Option String))
  | [], m => .ok m
  | pss :: rest, m =>
    match doc.get_glsl_pass stage_name pss with
    | .error e => .error e
    | .ok v => doc.get_glsl_passes stage_name rest (dict_set m pss.name v)

/-- Source `OGSFXShader.get_glsl` (shaderdata.py lines 291-325): mapping from
pass name to generated code (or `None`) for a (technique, stage) pair. -/
def OGSFXShader.get_glsl (doc : OGSFXShader) (technique_name stage_name : String) :
    Except OgsfxError (List (String × Option String)) :=
  match doc.find_technique technique_name with
  | .error e => .error e
  | .ok technique => doc.get_glsl_passes stage_name technique.passes []

/-! ## Embedded-code sub-lexer (src/shaders/ogsfx_future/lexer.py)

PLY's `glsl` exclusive state.  At each input position PLY first skips a
character listed in `t_glsl_ignore = ' \t\n'`, then tries the master
regex, whose alternatives appear in definition order:
`t_glsl_lbrace` (`\{`), `t_glsl_rbrace` (`\}`), `t_glsl_nonspace`
(`[^\s]+`).  The alternation picks the first alternative matching at
the position, and `[^\s]+` is greedy, so a maximal non-whitespace run
beginning with a non-brace character consumes any braces inside it
without them reaching the brace rules.  A position matching no rule
(a `\s` character not in the ignore set, i.e. `\r`, `\x0b`, `\x0c`) is
a scanning error.  At end of input PLY simply reports end-of-stream: an
open block produces no token and no error.  The captured body is
`lexdata[glsl_begin:lexpos-1]`: every consumed character, excluding the
closing brace.  The run consumption is rendered as a flat two-state
automaton (`inRun` marks that the previous character extended a
`t_glsl_nonspace` match still in progress).
src/shaders/scribble/lexer.py lines 101-138 define the identical state
machine (only the begin keyword differs). -/

/-- Characters of the Python regex class `\s`. -/
def pySpace (c : Char) : Bool :=
  c == ' ' || c == '\t' || c == '\n' || c == '\r' || c == '\x0b' || c == '\x0c'

/-- Source `t_glsl_ignore = ' \t\n'`. -/
def glslIgnore (c : Char) : Bool :=
  c == ' ' || c == '\t' || c == '\n'

/-- Outcome of lexing in embedded-code mode. -/
inductive CaptureResult where
  /-- the `GLSL` token: name is attached by the caller, body is the text
  between the opening brace (exclusive) and closing brace (exclusive) -/
  | token (body : List Char)
  /-- end of input with the brace counter still positive: PLY returns
  end-of-stream, emitting no token and raising nothing -/
  | unterminated
  /-- a character no rule of the `glsl` state matches -/
  | illegalChar (c : Char)
  deriving DecidableEq, Repr

/-- The `glsl` exclusive state (rules `t_glsl_lbrace`, `t_glsl_rbrace`,
`t_glsl_nonspace`, `t_glsl_ignore`), entered by `t_begin_glsl` with
`brace_level = 1` and `inRun = false`.  `acc` is the text consumed so
far (the eventual token body).  While `inRun` is set, any non-`\s`
character — braces included — extends the current `t_glsl_nonspace`
match; at a run boundary the ignore set, the brace rules and the
error case apply in PLY's order. -/
def glslMode : (cs : List Char) → (depth : Nat) → (acc : List Char) →
    (inRun : Bool) → CaptureResult
  | [], _, _, _ => .unterminated
  | c :: rest, depth, acc, inRun =>
    if inRun && !pySpace c then glslMode rest depth (acc ++ [c]) true
    else if glslIgnore c then glslMode rest depth (acc ++ [c]) false
    else if c == '\x7b' then glslMode rest (depth + 1) (acc ++ [c]) false
    else if c == '\x7d' then
      if depth == 1 then .token acc
      else glslMode rest (depth - 1) (acc ++ [c]) false
    else if pySpace c then .illegalChar c
    else glslMode rest depth (acc ++ [c]) true

/-- The embedded-code mode exactly as the claim words it: the counter is
seeded at 1, EVERY `\x7b` character increments it, EVERY `\x7d`
character decrements it, the block closes when it reaches 0, and the
body is the verbatim range up to (excluding) that closing brace. -/
def glslModeClaim : (cs : List Char) → (depth : Nat) → (acc : List Char) → CaptureResult
  | [], _, _ => .unterminated
  | c :: rest, depth, acc =>
    if c == '\x7b' then glslModeClaim rest (depth + 1) (acc ++ [c])
    else if c == '\x7d' then
      if depth == 1 then .token acc
      else glslModeClaim rest (depth - 1) (acc ++ [c])
    else glslModeClaim rest depth (acc ++ [c])

/-- Regex class `[A-Za-z_]`. -/
def isIdentStart (c : Char) : Bool := c.isAlpha || c == '_'

/-- Regex class `[A-Za-z0-9_]`. -/
def isIdentChar (c : Char) : Bool := c.isAlphanum || c == '_'

/-- Literal prefix match. -/
def stripLit : List Char → List Char → Option (List Char)
  | [], cs => some cs
  | _ :: _, [] => none
  | l :: ls, c :: cs => if c == l then stripLit ls cs else none

/-- Source `t_begin_glsl` (lexer.py lines 129-145): the start-of-block regex
`GLSLShader\s+[A-Za-z_][A-Za-z0-9_]*\s*\{`; on a match, returns the
captured name and the input after the opening brace (`glsl_begin`). -/
def t_begin_glsl (src : List Char) : Option (String × List Char) :=
  match stripLit "GLSLShader".toList src with
  | none => none
  | some cs =>
    match cs with
    | [] => none
    | c :: rest =>
      if pySpace c then
        match rest.dropWhile pySpace with
        | [] => none
        | d :: rest2 =>
          if isIdentStart d then
            match (rest2.dropWhile isIdentChar).dropWhile pySpace with
            | '\x7b' :: body => some (String.mk (d :: rest2.takeWhile isIdentChar), body)
            | _ => none
          else none
      else none

/-- Lexing a source whose head is an embedded-code section: match the
begin pattern, then run the embedded-code mode with the counter at 1. -/
def lex_embedded (src : List Char) : Option (String × CaptureResult) :=
  (t_begin_glsl src).map (fun x => (x.1, glslMode x.2 1 [] false))

/-! ## GLSL loader (src/addon/loader/glsl.py)

`load_shader` examines each line with `re.search` for a `#version` or an
`#include` directive; a line is embedded pre-classified (a version line,
an include line with its captured relative path, or any other text
line).  `full` payloads carry the raw line text including its trailing
newline, as `readlines` yields it.  The filesystem is an association
list from path to classified lines. -/

/-- One line of a GLSL source file, as classified by `load_shader`'s
two `re.search` calls (a line matching both counts as a version line,
mirroring the `if`/`elif` order). -/
inductive GLine where
  | version (full : String)
  | incl (rel : String)
  | text (full : String)
  deriving DecidableEq, Repr

/-- Model of `os.path.dirname` for forward-slash paths: everything before the
last `/`, empty for a bare filename. -/
def dirname (path : String) : String :=
  String.mk (((path.toList.reverse.dropWhile (fun c => !(c == '/'))).drop 1).reverse)

/-- Model of `os.path.basename` for forward-slash paths: everything after the
last `/`. -/
def basename (path : String) : String :=
  String.mk ((path.toList.reverse.takeWhile (fun c => !(c == '/'))).reverse)

/-- Model of `os.path.join` for the relative paths the loader builds. -/
def path_join (dir file : String) : String :=
  if dir == "" then file else dir ++ "/" ++ file

/-- Source `DEFAULT_GLSL_VERSION = '330 core'` (loader/glsl.py line 18). -/
def DEFAULT_GLSL_VERSION : String := "330 core"

/-- The message of the `depth > 100` guard (loader/glsl.py lines 21-22). -/
def recursion_error : String :=
  "Include exceeds max depth. Might be a recursive inclusion"

/-- Render of the `'#define {} {}\n'` lines for the injected defines dict. -/
def define_block (defines : List (String × String)) : String :=
  defines.foldl (fun s kv => s ++ "#define " ++ kv.1 ++ " " ++ kv.2 ++ "\n") ""

/-- One iteration of the `for line in lines` loop of `load_shader`
(loader/glsl.py lines 34-65).  `recur` is the recursive
`load_shader(include_file, depth=depth+1, is_include=True)` call at the
next nesting depth (note: the Python call passes no `defines`, so an
included file is processed with the empty dict).  The accumulator
carries the shader text, `line_num` and `has_version`; an error from a
nested inclusion aborts the loop. -/
def load_step (recur : String → List (String × String) → Bool → Except String String)
    (file : String) (defines : List (String × String)) (is_include : Bool)
    (acc : Except String (String × Nat × Bool)) (l : GLine) :
    Except String (String × Nat × Bool) :=
  match acc with
  | .error e => .error e
  | .ok (shader, ln, hv) =>
    match l with
    | .version full =>
      if is_include || hv then .ok (shader ++ "\n", ln + 1, hv)
      else
        .ok (shader ++ full ++ define_block defines ++
          "#line " ++ toString (ln + 1) ++ " \"" ++ basename file ++ "\"\n",
          ln + 1, true)
    | .text full => .ok (shader ++ full, ln + 1, hv)
    | .incl rel =>
      match recur (path_join (dirname file) rel) [] true with
      | .error e => .error e
      | .ok inc =>
        .ok (shader ++ inc ++
          "\n#line " ++ toString (ln + 1) ++ " \"" ++ basename file ++ "\"\n",
          ln + 1, hv)

/-- The body of one `load_shader` call past the entry guard
(loader/glsl.py lines 24-75): read the file, seed the shader text with
the `#line 1` header, run the line loop, and for a top-level file that
never declared a version prepend the default `#version` and the
defines. -/
def load_body (fs : List (String × List GLine))
    (recur : String → List (String × String) → Bool → Except String String)
    (file : String) (defines : List (String × String)) (is_include : Bool) :
    Except String String :=
  match List.lookup file fs with
  | none => .error ("FileNotFoundError: " ++ file)
  | some lines =>
    match lines.foldl (load_step recur file defines is_include)
      (.ok ("#line 1 \"" ++ basename file ++ "\"\n", (1 : Nat), false)) with
    | .error e => .error e
    | .ok (shader, _, hv) =>
      if !hv && !is_include then
        .ok ("#version " ++ DEFAULT_GLSL_VERSION ++ "\n" ++ define_block defines ++ shader)
      else
        .ok shader

/-- Source `load_shader` at a given nesting budget.  `fuel` counts the
remaining include-nesting budget: the call at Python depth `k` runs
with `fuel = 101 - k`, so `fuel = 0` is exactly the `depth > 100` entry
guard firing.  Written with the primitive recursor so the definition
computes by kernel reduction. -/
def load_file (fs : List (String × List GLine)) (fuel : Nat) :
    String → List (String × String) → Bool → Except String String :=
  Nat.rec
    (motive := fun _ => String → List (String × String) → Bool → Except String String)
    (fun _ _ _ => .error recursion_error)
    (fun _f recur => load_body fs recur)
    fuel

/-- Public `load_shader(file, defines)` (loader/glsl.py line 20):
`depth = 0`, `is_include = False`; the `depth > 100` guard admits the
top-level call plus 100 nested inclusions, hence budget 101. -/
def load_shader (fs : List (String × List GLine)) (file : String)
    (defines : List (String × String)) : Except String String :=
  load_file fs 101 file defines false

/-! ## Include/define preprocessor (src/shaders/glsl/preprocessor.py)

`GLSLPreprocessor` subclasses pcpp's `Preprocessor`, which is not part
of the repository source tree; its directive dispatch, conditional
evaluation and include splicing are modelled from the specification
(spec.md section 4.2): `#include` is resolved relative to the including
file's directory, spliced recursively with a bounded depth; every other
directive is evaluated and not passed through to the output; `#version`
is dropped wherever it appears, per the `on_directive_handle` override
in the source (preprocessor.py lines 8-20).  Non-directive lines inside
an elided conditional branch are dropped, others pass through.  The
model is additionally instrumented with `trace`, the sequence of
resolved include paths in processing order, to state the
first-encounter ordering of `includes`. -/

/-- One line of preprocessor input, pre-classified by directive kind. -/
inductive PLine where
  | text (s : String)
  | incl (rel : String)
  | version (rest : String)
  | define (name : String)
  | undef_dir (name : String)
  | ifdef_dir (name : String)
  | ifndef_dir (name : String)
  | els
  | endif
  | other (s : String)
  deriving DecidableEq, Repr

/-- Is an output line a `#version` directive? -/
def PLine.isVersion : PLine → Bool
  | .version _ => true
  | _ => false

/-- Preprocessor state: defined macro names, the `includes` sequence,
the conditional stack, and the instrumentation trace of include
encounters. -/
structure PPState where
  defines : List String
  includes : List String
  cond : List Bool
  trace : List String
  deriving DecidableEq, Repr

/-- Source `GLSLPreprocessor.include_to_id` (preprocessor.py lines 39-45): the
index of a known include, else append and return the new index.  Pure
state-passing rendition: returns the id and the updated `includes`. -/
def include_to_id (includes : List String) (inc : String) : Nat × List String :=
  if includes.contains inc then (includes.indexOf inc, includes)
  else (includes.length, includes ++ [inc])

/-- All enclosing conditionals are true. -/
def pp_active (st : PPState) : Bool := st.cond.all id

/-- One line of preprocessor dispatch (modelled from the spec, driven
through the source `on_directive_handle`): conditional directives
manage the stack even in elided regions; all other effects apply only
when the region is active.  `recur` splices an included file at the
next nesting depth. -/
def pp_step (recur : String → PPState → List PLine → Except String (List PLine × PPState))
    (path : String) (acc : Except String (List PLine × PPState)) (l : PLine) :
    Except String (List PLine × PPState) :=
  match acc with
  | .error e => .error e
  | .ok (out, st) =>
    match l with
    | .ifdef_dir n => .ok (out, { st with cond := st.defines.contains n :: st.cond })
    | .ifndef_dir n => .ok (out, { st with cond := (!st.defines.contains n) :: st.cond })
    | .els =>
      .ok (out, { st with cond := match st.cond with | b :: t => (!b) :: t | [] => [] })
    | .endif => .ok (out, { st with cond := st.cond.tail })
    | .text s =>
      if pp_active st then .ok (out ++ [.text s], st) else .ok (out, st)
    | .version _ => .ok (out, st)
    | .define n =>
      if pp_active st then .ok (out, { st with defines := st.defines ++ [n] })
      else .ok (out, st)
    | .undef_dir n =>
      if pp_active st then .ok (out, { st with defines := st.defines.erase n })
      else .ok (out, st)
    | .other _ => .ok (out, st)
    | .incl rel =>
      if pp_active st then
        recur (path_join (dirname path) rel)
          { st with
              includes := (include_to_id st.includes (path_join (dirname path) rel)).2
            , trace := st.trace ++ [path_join (dirname path) rel] }
          out
      else .ok (out, st)

/-- Processing of one file's lines past the depth guard. -/
def pp_body (fs : List (String × List PLine))
    (recur : String → PPState → List PLine → Except String (List PLine × PPState))
    (path : String) (st₀ : PPState) (out₀ : List PLine) :
    Except String (List PLine × PPState) :=
  match List.lookup path fs with
  | none => .error ("FileNotFoundError: " ++ path)
  | some lines => lines.foldl (pp_step recur path) (.ok (out₀, st₀))

/-- Directive processing of a file at a bounded include-nesting budget,
one budget unit per nesting level; written with the primitive recursor
so the definition computes by kernel reduction. -/
def pp_file (fs : List (String × List PLine)) (fuel : Nat) :
    String → PPState → List PLine → Except String (List PLine × PPState) :=
  Nat.rec
    (motive := fun _ => String → PPState → List PLine → Except String (List PLine × PPState))
    (fun _ _ _ => .error "recursive inclusion suspected")
    (fun _f recur => pp_body fs recur)
    fuel

/-- Source `GLSLPreprocessor.parse_file` (preprocessor.py lines 22-37): seed
`includes = [filename]`, read and process the file (a missing file
fails), return the output and the final state.  `predefines` models
macro names seeded through `define()` before parsing. -/
def parse_file (fs : List (String × List PLine)) (fuel : Nat)
    (predefines : List String) (path : String) :
    Except String (List PLine × PPState) :=
  pp_file fs fuel path ⟨predefines, [path], [], []⟩ []

/-- Spec phrase "in the order each was first encountered, with duplicates removed":
the new elements a sequence of encounters contributes after `acc`,
keeping only first occurrences.  Written from the claim text, to be
compared with the `includes` the source builds through
`include_to_id`. -/
def firstNew (acc : List String) : List String → List String
  | [] => []
  | x :: xs => if acc.contains x then firstNew acc xs else x :: firstNew (acc ++ [x]) xs

/-! ## String appending facts used throughout -/

theorem str_assoc : ∀ (a b c : String), a ++ b ++ c = a ++ (b ++ c)
  | ⟨as⟩, ⟨bs⟩, ⟨cs⟩ => congrArg String.mk (List.append_assoc as bs cs)

theorem str_append_empty : ∀ (a : String), a ++ "" = a
  | ⟨as⟩ => congrArg String.mk (List.append_nil as)

/-! ## Concrete fixtures

A small document in the shape of the spec's "minimal pass" and
"multi-block concatenation" scenarios, built through the parser's start
production. -/

/-- Block list of a representative source: one aliased uniform, the
`APPDATA` and `V2F` streams, three named code blocks, and a technique
`Main` with pass `p0` (vertex stage only) and pass `p1` (vertex and
pixel stages, the pixel stage naming two blocks). -/
def exBlocks : List Block :=
  [ .uniform ⟨"mat4", "gMVP", some "WorldViewProjection"⟩
  , .stream ⟨"APPDATA", [⟨"vec3", "co", "POSITION"⟩, ⟨"vec3", "no", "NORMAL"⟩]⟩
  , .stream ⟨"V2F", [⟨"vec4", "positionWS", "POSITION"⟩]⟩
  , .glsl ⟨"VS", "void main()\x7b\x7d\n"⟩
  , .glsl ⟨"Foo", "Foo code block\n"⟩
  , .glsl ⟨"Bar", "Bar code block\n"⟩
  , .technique ⟨"Main",
      [ ⟨"p0", [⟨"VertexShader", ⟨"in", "APPDATA", none⟩, ⟨"out", "V2F", some "vsout"⟩, ["VS"]⟩]⟩
      , ⟨"p1", [⟨"VertexShader", ⟨"in", "APPDATA", none⟩, ⟨"out", "V2F", some "vsout"⟩, ["VS"]⟩,
                ⟨"PixelShader", ⟨"in", "V2F", some "fsin"⟩, ⟨"out", "V2F", none⟩, ["Foo", "Bar"]⟩]⟩ ]⟩ ]

/-- The parsed fixture document. -/
def exDoc : OGSFXShader := p_shader exBlocks

/-- The fixture with the pixel stage referencing an undefined block name. -/
def exBlocksMissing : List Block :=
  [ .stream ⟨"APPDATA", [⟨"vec3", "co", "POSITION"⟩]⟩
  , .technique ⟨"Main",
      [ ⟨"p0", [⟨"VertexShader", ⟨"in", "APPDATA", none⟩, ⟨"out", "APPDATA", none⟩, ["Missing"]⟩]⟩ ]⟩ ]

/-- Parsed document whose only stage references the undefined `Missing`. -/
def exDocMissing : OGSFXShader := p_shader exBlocksMissing








/-! ## Dict and pass-loop lemmas -/

theorem lookup_map_set (m : List (String × Option String)) (x k : String)
    (w : Option String) (h : k ≠ x) :
    List.lookup k (m.map (fun kv => if kv.1 == x then (x, w) else kv)) =
      List.lookup k m := by
  have h1 : (k == x) = false := beq_eq_false_iff_ne.mpr h
  induction m with
  | nil => rfl
  | cons kv rest ih =>
    rw [List.map_cons]
    by_cases hk : kv.1 = x
    · have hif : (if kv.1 == x then (x, w) else kv) = (x, w) := by
        simp [beq_iff_eq.mpr hk]
      rw [hif]
      have h2 : (k == kv.1) = false := by rw [hk]; exact h1
      simp only [List.lookup, h1, h2]
      simpa using ih
    · have hif : (if kv.1 == x then (x, w) else kv) = kv := by
        simp [beq_eq_false_iff_ne.mpr hk]
      rw [hif]
      by_cases hke : kv.1 = k
      · have h3 : (k == kv.1) = true := beq_iff_eq.mpr hke.symm
        simp [List.lookup, h3]
      · have h3 : (k == kv.1) = false :=
          beq_eq_false_iff_ne.mpr (fun hh => hke hh.symm)
        simp only [List.lookup, h3]
        simpa using ih

theorem lookup_append_single_ne (m : List (String × Option String)) (x k : String)
    (w : Option String) (h : k ≠ x) :
    List.lookup k (m ++ [(x, w)]) = List.lookup k m := by
  have h1 : (k == x) = false := beq_eq_false_iff_ne.mpr h
  induction m with
  | nil => simp [List.lookup, h1]
  | cons kv rest ih =>
    by_cases hke : kv.1 = k
    · have h3 : (k == kv.1) = true := beq_iff_eq.mpr hke.symm
      simp [List.lookup, h3]
    · have h3 : (k == kv.1) = false :=
        beq_eq_false_iff_ne.mpr (fun hh => hke hh.symm)
      simp [List.lookup, h3, ih]

theorem lookup_dict_set_ne (m : List (String × Option String)) (x k : String)
    (w : Option String) (h : k ≠ x) :
    List.lookup k (dict_set m x w) = List.lookup k m := by
  unfold dict_set
  by_cases hany : m.any (fun kv => kv.1 == x)
  · simp only [hany, if_true]
    exact lookup_map_set m x k w h
  · simp only [hany, Bool.false_eq_true, if_false]
    exact lookup_append_single_ne m x k w h

theorem mem_dict_set {m : List (String × Option String)} {x : String}
    {w : Option String} {kv : String × Option String} (h : kv ∈ dict_set m x w) :
    kv ∈ m ∨ kv = (x, w) := by
  unfold dict_set at h
  by_cases hany : m.any (fun kv => kv.1 == x)
  · simp only [hany, if_true] at h
    rcases List.mem_map.mp h with ⟨kv0, hkv0, heq⟩
    by_cases hk : kv0.1 = x
    · right
      rw [← heq]
      simp [beq_iff_eq.mpr hk]
    · left
      have : kv = kv0 := by rw [← heq]; simp [beq_eq_false_iff_ne.mpr hk]
      rw [this]
      exact hkv0
  · simp only [hany, Bool.false_eq_true, if_false] at h
    rcases List.mem_append.mp h with h | h
    · left; exact h
    · right; simpa using h

theorem dict_set_fresh {m : List (String × Option String)} {x : String}
    {w : Option String} (h : ∀ kv ∈ m, kv.1 ≠ x) :
    dict_set m x w = m ++ [(x, w)] := by
  unfold dict_set
  have hany : m.any (fun kv => kv.1 == x) = false := by
    refine List.any_eq_false.mpr ?_
    intro kv hkv
    simp [beq_eq_false_iff_ne.mpr (h kv hkv)]
  simp [hany]

theorem lookup_append_fresh {m : List (String × Option String)} {x : String}
    {w : Option String} (h : ∀ kv ∈ m, kv.1 ≠ x) :
    List.lookup x (m ++ [(x, w)]) = some w := by
  induction m with
  | nil => simp [List.lookup]
  | cons kv rest ih =>
    have hne : (x == kv.1) = false :=
      beq_eq_false_iff_ne.mpr (fun hh => (h kv (by simp)) hh.symm)
    simp only [List.cons_append, List.lookup, hne]
    exact ih (fun kv2 hkv2 => h kv2 (by simp [hkv2]))

/-- A pass whose stage is absent contributes `None`
(shaderdata.py line 323). -/
theorem get_glsl_pass_none {doc : OGSFXShader} {sn : String} {p : Pass}
    (h : p.find_stage sn = none) : doc.get_glsl_pass sn p = .ok none := by
  unfold OGSFXShader.get_glsl_pass
  rw [h]

theorem get_glsl_passes_preserve (doc : OGSFXShader) (sn : String) :
    ∀ (l : List Pass) (m0 m : List (String × Option String)) (k : String)
      (v : Option String),
      doc.get_glsl_passes sn l m0 = .ok m → List.lookup k m0 = some v →
      (∀ p ∈ l, p.name ≠ k) → List.lookup k m = some v := by
  intro l
  induction l with
  | nil =>
    intro m0 m k v h h0 _
    simp only [OGSFXShader.get_glsl_passes] at h
    cases h
    exact h0
  | cons pss rest ih =>
    intro m0 m k v h h0 hne
    cases heq : doc.get_glsl_pass sn pss with
    | error e =>
      simp only [OGSFXShader.get_glsl_passes, heq] at h
      exact absurd h (by simp)
    | ok v2 =>
      simp only [OGSFXShader.get_glsl_passes, heq] at h
      have hk : k ≠ pss.name := fun hh => (hne pss (by simp)) hh.symm
      have h0' : List.lookup k (dict_set m0 pss.name v2) = some v := by
        rw [lookup_dict_set_ne m0 pss.name k v2 hk]
        exact h0
      exact ih (dict_set m0 pss.name v2) m k v h h0'
        (fun p hp => hne p (by simp [hp]))

theorem get_glsl_passes_lookup (doc : OGSFXShader) (sn : String) :
    ∀ (l : List Pass) (m0 m : List (String × Option String)) (p : Pass)
      (v : Option String),
      doc.get_glsl_passes sn l m0 = .ok m → p ∈ l →
      (l.map Pass.name).Nodup → (∀ kv ∈ m0, kv.1 ≠ p.name) →
      doc.get_glsl_pass sn p = .ok v → List.lookup p.name m = some v := by
  intro l
  induction l with
  | nil => intro m0 m p v _ hp; exact absurd hp (by simp)
  | cons pss rest ih =>
    intro m0 m p v h hp hnd h0 hentry
    rw [List.map_cons] at hnd
    have hcons := List.nodup_cons.mp hnd
    have hnotin : pss.name ∉ rest.map Pass.name := hcons.1
    rcases List.mem_cons.mp hp with rfl | hp
    · simp only [OGSFXShader.get_glsl_passes, hentry] at h
      have hset : dict_set m0 p.name v = m0 ++ [(p.name, v)] := dict_set_fresh h0
      rw [hset] at h
      have hlook : List.lookup p.name (m0 ++ [(p.name, v)]) = some v :=
        lookup_append_fresh h0
      exact get_glsl_passes_preserve doc sn rest (m0 ++ [(p.name, v)]) m p.name v h
        hlook (fun q hq hqe => hnotin (hqe ▸ List.mem_map_of_mem Pass.name hq))
    · cases heq : doc.get_glsl_pass sn pss with
      | error e =>
        simp only [OGSFXShader.get_glsl_passes, heq] at h
        exact absurd h (by simp)
      | ok v2 =>
        simp only [OGSFXShader.get_glsl_passes, heq] at h
        have hz : pss.name ≠ p.name := by
          intro hh
          exact hnotin (hh ▸ List.mem_map_of_mem Pass.name hp)
        have h0' : ∀ kv ∈ dict_set m0 pss.name v2, kv.1 ≠ p.name := by
          intro kv hkv
          rcases mem_dict_set hkv with hin | rfl
          · exact h0 kv hin
          · exact hz
        exact ih (dict_set m0 pss.name v2) m p v h hp hcons.2 h0' hentry

/-- Unfolds `get_glsl` once the technique resolved. -/
theorem get_glsl_eq_passes {doc : OGSFXShader} {tn sn : String} {tech : Technique}
    (ht : doc.find_technique tn = .ok tech) :
    doc.get_glsl tn sn = doc.get_glsl_passes sn tech.passes [] := by
  unfold OGSFXShader.get_glsl
  rw [ht]

/-- C1: for every Document and every Pass of the named Technique whose
Pass lacks a Stage of the requested stage kind, `get_glsl` maps that
pass's name to null (`none`) in the returned mapping.
(Pass names in the technique are assumed pairwise distinct, as the
Python dict keyed by pass name presumes.) -/
theorem c1_omitted_stage_null (doc : OGSFXShader) (tn sn : String) (tech : Technique)
    (m : List (String × Option String)) (p : Pass)
    (hg : doc.get_glsl tn sn = .ok m)
    (ht : doc.find_technique tn = .ok tech)
    (hnd : (tech.passes.map Pass.name).Nodup)
    (hp : p ∈ tech.passes)
    (hs : p.find_stage sn = none) :
    List.lookup p.name m = some none := by
  rw [get_glsl_eq_passes ht] at hg
  exact get_glsl_passes_lookup doc sn tech.passes [] m p none hg hp hnd
    (by simp) (get_glsl_pass_none hs)

/-- The technique literal of `exDoc`. -/
def exMainTechnique : Technique :=
  ⟨"Main",
    [ ⟨"p0", [⟨"VertexShader", ⟨"in", "APPDATA", none⟩, ⟨"out", "V2F", some "vsout"⟩, ["VS"]⟩]⟩
    , ⟨"p1", [⟨"VertexShader", ⟨"in", "APPDATA", none⟩, ⟨"out", "V2F", some "vsout"⟩, ["VS"]⟩,
              ⟨"PixelShader", ⟨"in", "V2F", some "fsin"⟩, ⟨"out", "V2F", none⟩, ["Foo", "Bar"]⟩]⟩ ]⟩

/-- The `p0` literal of `exDoc`. -/
def exPass0 : Pass :=
  ⟨"p0", [⟨"VertexShader", ⟨"in", "APPDATA", none⟩, ⟨"out", "V2F", some "vsout"⟩, ["VS"]⟩]⟩

/-- C1 witness: the spec's "omitted stage returns null" scenario — in
`exDoc`, pass `p0` has only a Vertex stage, and
`generate(doc, "Main", "FragmentShader")["p0"]` is null. -/
theorem c1_omitted_stage_null_witness :
    List.lookup "p0" [("p0", (none : Option String)), ("p1", none)] = some none :=
  c1_omitted_stage_null exDoc "Main" "FragmentShader" exMainTechnique
    [("p0", none), ("p1", none)] exPass0
    (by decide) (by decide) (by decide) (by decide) (by decide)

theorem str_empty_append : ∀ (a : String), "" ++ a = a
  | ⟨_⟩ => rfl

theorem str_foldl_append : ∀ (cs : List String) (a : String),
    List.foldl (· ++ ·) a cs = a ++ String.join cs := by
  intro cs
  induction cs with
  | nil => intro a; exact (str_append_empty a).symm
  | cons c cs ih =>
    intro a
    show List.foldl (· ++ ·) (a ++ c) cs = a ++ String.join (c :: cs)
    rw [ih]
    show a ++ c ++ String.join cs = a ++ List.foldl (· ++ ·) ("" ++ c) cs
    rw [ih ("" ++ c), str_empty_append, ← str_assoc]

theorem str_join_cons (c : String) (cs : List String) :
    String.join (c :: cs) = c ++ String.join cs := by
  show List.foldl (· ++ ·) ("" ++ c) cs = c ++ String.join cs
  rw [str_empty_append]
  exact str_foldl_append cs c

/-- An `ok` result of the source-concatenation loop extends the shader
text accumulated so far. -/
theorem concat_sources_ok_prefix (doc : OGSFXShader) :
    ∀ (ids : List String) (acc s : String),
      doc.concat_sources ids acc = .ok s → ∃ t, s = acc ++ t := by
  intro ids
  induction ids with
  | nil =>
    intro acc s h
    simp only [OGSFXShader.concat_sources] at h
    cases h
    exact ⟨"", (str_append_empty acc).symm⟩
  | cons n rest ih =>
    intro acc s h
    cases heq : doc.find_glsl_source n with
    | error e =>
      simp only [OGSFXShader.concat_sources, heq] at h
      exact absurd h (by simp)
    | ok g =>
      simp only [OGSFXShader.concat_sources, heq] at h
      rcases ih (acc ++ g.code) s h with ⟨t, ht⟩
      exact ⟨g.code ++ t, by rw [ht, str_assoc]⟩

/-- The concatenation loop, when every named block resolves: the
resolved bodies are appended in listed order with no separator. -/
theorem concat_sources_forall2 (doc : OGSFXShader) :
    ∀ {ids : List String} {codes : List String},
      List.Forall₂ (fun n c => ∃ g, doc.find_glsl_source n = .ok g ∧ g.code = c)
        ids codes →
      ∀ acc, doc.concat_sources ids acc = .ok (acc ++ String.join codes) := by
  intro ids codes h
  induction h with
  | nil =>
    intro acc
    show Except.ok acc = Except.ok (acc ++ String.join [])
    rw [show String.join [] = "" from rfl, str_append_empty]
  | cons hrel hrest ih =>
    intro acc
    rcases hrel with ⟨g, hfind, hcode⟩
    simp only [OGSFXShader.concat_sources, hfind]
    rw [ih (acc ++ g.code), hcode, str_join_cons, str_assoc]

/-- Every non-null per-pass string starts with the version line followed
by the defines block. -/
theorem get_glsl_pass_some_shape {doc : OGSFXShader} {sn : String} {p : Pass}
    {s : String} (h : doc.get_glsl_pass sn p = .ok (some s)) :
    ∃ t, s = "#version 420 core\n" ++ doc.get_defines_as_glsl ++ t := by
  unfold OGSFXShader.get_glsl_pass at h
  cases hst : p.find_stage sn with
  | none =>
    simp only [hst] at h
    exact absurd h (by simp)
  | some stage =>
    simp only [hst] at h
    cases hin : doc.get_stage_argument_as_glsl stage.in_arg with
    | error e =>
      simp only [hin] at h
      exact absurd h (by simp)
    | ok io_in =>
      simp only [hin] at h
      cases hout : doc.get_stage_argument_as_glsl stage.out_arg with
      | error e =>
        simp only [hout] at h
        exact absurd h (by simp)
      | ok io_out =>
        simp only [hout] at h
        cases hcat : doc.concat_sources stage.shader_ids
            ("#version 420 core\n" ++ doc.get_defines_as_glsl ++
              doc.get_uniforms_as_glsl ++ io_in ++ io_out) with
        | error e =>
          simp only [hcat] at h
          exact absurd h (by simp)
        | ok sh =>
          simp only [hcat, Except.ok.injEq, Option.some.injEq] at h
          rcases concat_sources_ok_prefix doc stage.shader_ids _ sh hcat with ⟨t0, ht0⟩
          refine ⟨doc.get_uniforms_as_glsl ++ (io_in ++ (io_out ++ t0)), ?_⟩
          rw [← h, ht0]
          simp only [str_assoc]

/-- Invariant carried through the pass loop: every non-null value in the
result satisfies a property every per-pass string satisfies. -/
theorem get_glsl_passes_some_vals (doc : OGSFXShader) (sn : String)
    (P : String → Prop)
    (hP : ∀ p s, doc.get_glsl_pass sn p = .ok (some s) → P s) :
    ∀ (l : List Pass) (m0 m : List (String × Option String)),
      doc.get_glsl_passes sn l m0 = .ok m →
      (∀ kv ∈ m0, ∀ s, kv.2 = some s → P s) →
      ∀ kv ∈ m, ∀ s, kv.2 = some s → P s := by
  intro l
  induction l with
  | nil =>
    intro m0 m h h0
    simp only [OGSFXShader.get_glsl_passes] at h
    cases h
    exact h0
  | cons pss rest ih =>
    intro m0 m h h0
    cases heq : doc.get_glsl_pass sn pss with
    | error e =>
      simp only [OGSFXShader.get_glsl_passes, heq] at h
      exact absurd h (by simp)
    | ok v2 =>
      simp only [OGSFXShader.get_glsl_passes, heq] at h
      refine ih (dict_set m0 pss.name v2) m h ?_
      intro kv hkv s hkvs
      rcases mem_dict_set hkv with hin | rfl
      · exact h0 kv hin s hkvs
      · have hv : v2 = some s := hkvs
        exact hP pss s (by rw [heq, hv])

/-- Installing blocks never touches `defines`. -/
theorem set_blocks_defines : ∀ (bs : List Block) (doc : OGSFXShader),
    (doc.set_blocks bs).defines = doc.defines := by
  intro bs
  induction bs with
  | nil => intro doc; rfl
  | cons b rest ih =>
    intro doc
    cases b <;> simp only [OGSFXShader.set_blocks] <;> exact ih _

/-- Every parser-built document carries exactly the constructor-seeded
defines dict. -/
theorem p_shader_defines (blocks : List Block) :
    (p_shader blocks).defines = [("DEBUG", some "1")] := by
  unfold p_shader
  rw [set_blocks_defines]
  rfl

/-- Hence the defines of a parser-built document render as the single DEBUG line. -/
theorem p_shader_defines_glsl (blocks : List Block) :
    (p_shader blocks).get_defines_as_glsl = "#define DEBUG 1\n" := by
  unfold OGSFXShader.get_defines_as_glsl
  rw [p_shader_defines]
  rfl

/-- C10: every Document built by the parser's start production has its
defines map pre-populated with `DEBUG -> '1'`, and every non-null pass
string `get_glsl` produces for such a Document contains the line
`#define DEBUG 1` directly after the version line. -/
theorem c10_debug_define_default (blocks : List Block) (tn sn k s : String)
    (m : List (String × Option String))
    (hg : (p_shader blocks).get_glsl tn sn = .ok m)
    (hmem : (k, some s) ∈ m) :
    (p_shader blocks).defines = [("DEBUG", some "1")] ∧
    ∃ t, s = "#version 420 core\n#define DEBUG 1\n" ++ t := by
  refine ⟨p_shader_defines blocks, ?_⟩
  unfold OGSFXShader.get_glsl at hg
  cases ht : (p_shader blocks).find_technique tn with
  | error e => rw [ht] at hg; exact absurd hg (by simp)
  | ok tech =>
    rw [ht] at hg
    have main := get_glsl_passes_some_vals (p_shader blocks) sn
      (fun s => ∃ t, s = "#version 420 core\n#define DEBUG 1\n" ++ t)
      (fun p s hps => by
        rcases get_glsl_pass_some_shape hps with ⟨t, hts⟩
        rw [p_shader_defines_glsl] at hts
        exact ⟨t, by
          rw [hts]
          rw [show ("#version 420 core\n" ++ "#define DEBUG 1\n" : String) =
            "#version 420 core\n#define DEBUG 1\n" from rfl]⟩)
      tech.passes [] m hg (by simp)
    exact main (k, some s) hmem s rfl

/-- The `p0` vertex-stage string `get_glsl` generates from `exDoc`. -/
def exP0VS : String :=
  "#version 420 core\n#define DEBUG 1\nuniform mat4 gMVP;\nin vec3 co;\nin vec3 no;\nout V2F \x7b\n    vec4 positionWS;\n\x7d vsout;\nvoid main()\x7b\x7d\n"

/-- C10 witness: the fixture document's `p0` vertex string carries the
version line immediately followed by `#define DEBUG 1`. -/
theorem c10_debug_define_default_witness :
    (p_shader exBlocks).defines = [("DEBUG", some "1")] ∧
    ∃ t, exP0VS = "#version 420 core\n#define DEBUG 1\n" ++ t :=
  c10_debug_define_default exBlocks "Main" "VertexShader" "p0" exP0VS
    [("p0", some exP0VS), ("p1", some exP0VS)] (by decide) (by decide)

/-- C8: for a pass whose stage resolves, the generated string is exactly
the version/defines/uniform/interface declarations followed by the
resolved block bodies joined in listed order with no separator. -/
theorem c8_multi_block_concat (doc : OGSFXShader) (tn sn : String)
    (tech : Technique) (m : List (String × Option String)) (p : Pass)
    (stage : Stage) (io_in io_out : String) (codes : List String)
    (hg : doc.get_glsl tn sn = .ok m)
    (ht : doc.find_technique tn = .ok tech)
    (hnd : (tech.passes.map Pass.name).Nodup)
    (hp : p ∈ tech.passes)
    (hs : p.find_stage sn = some stage)
    (hin : doc.get_stage_argument_as_glsl stage.in_arg = .ok io_in)
    (hout : doc.get_stage_argument_as_glsl stage.out_arg = .ok io_out)
    (hcodes : List.Forall₂
      (fun n c => ∃ g, doc.find_glsl_source n = .ok g ∧ g.code = c)
      stage.shader_ids codes) :
    List.lookup p.name m = some (some
      ("#version 420 core\n" ++ doc.get_defines_as_glsl ++
        doc.get_uniforms_as_glsl ++ io_in ++ io_out ++ String.join codes)) := by
  rw [get_glsl_eq_passes ht] at hg
  have hentry : doc.get_glsl_pass sn p = .ok (some
      ("#version 420 core\n" ++ doc.get_defines_as_glsl ++
        doc.get_uniforms_as_glsl ++ io_in ++ io_out ++ String.join codes)) := by
    simp only [OGSFXShader.get_glsl_pass, hs, hin, hout]
    rw [concat_sources_forall2 doc hcodes]
  exact get_glsl_passes_lookup doc sn tech.passes [] m p _ hg hp hnd (by simp) hentry

/-- The `p1` literal of `exDoc`. -/
def exPass1 : Pass :=
  ⟨"p1", [⟨"VertexShader", ⟨"in", "APPDATA", none⟩, ⟨"out", "V2F", some "vsout"⟩, ["VS"]⟩,
          ⟨"PixelShader", ⟨"in", "V2F", some "fsin"⟩, ⟨"out", "V2F", none⟩, ["Foo", "Bar"]⟩]⟩

/-- The pixel stage literal of `p1`. -/
def exStagePX : Stage :=
  ⟨"PixelShader", ⟨"in", "V2F", some "fsin"⟩, ⟨"out", "V2F", none⟩, ["Foo", "Bar"]⟩

/-- C8 witness: the spec's multi-block scenario on `exDoc`: the `p1`
pixel string is the header followed by the `Foo` body immediately
followed by the `Bar` body. -/
theorem c8_multi_block_concat_witness :
    List.lookup "p1"
      [("p0", (none : Option String)),
       ("p1", some ("#version 420 core\n" ++ exDoc.get_defines_as_glsl ++
         exDoc.get_uniforms_as_glsl ++
         "in V2F \x7b\n    vec4 positionWS;\n\x7d fsin;\n" ++
         "out vec4 positionWS;\n" ++
         String.join ["Foo code block\n", "Bar code block\n"]))] =
    some (some ("#version 420 core\n" ++ exDoc.get_defines_as_glsl ++
      exDoc.get_uniforms_as_glsl ++
      "in V2F \x7b\n    vec4 positionWS;\n\x7d fsin;\n" ++
      "out vec4 positionWS;\n" ++
      String.join ["Foo code block\n", "Bar code block\n"])) :=
  c8_multi_block_concat exDoc "Main" "PixelShader" exMainTechnique _ exPass1
    exStagePX "in V2F \x7b\n    vec4 positionWS;\n\x7d fsin;\n"
    "out vec4 positionWS;\n" ["Foo code block\n", "Bar code block\n"]
    (by decide) (by decide) (by decide) (by decide) (by decide) (by decide)
    (by decide)
    (.cons ⟨⟨"Foo", "Foo code block\n"⟩, by decide, rfl⟩
      (.cons ⟨⟨"Bar", "Bar code block\n"⟩, by decide, rfl⟩ .nil))

/-! ## C2: lazy resolution of GLSLBlock names -/

/-- Helper `find_glsl_source` fails only with its own "No GLSLShader named"
error. -/
theorem find_glsl_source_error_eq {doc : OGSFXShader} {n : String}
    {e : OgsfxError} (h : doc.find_glsl_source n = .error e) :
    e = .noGLSLShader n := by
  unfold OGSFXShader.find_glsl_source at h
  cases hf : doc.glsl.find? (fun g => g.name == n) with
  | some g =>
    simp only [hf] at h
    exact absurd h (by simp)
  | none =>
    simp only [hf, Except.error.injEq] at h
    exact h.symm

theorem concat_sources_error_mem (doc : OGSFXShader) :
    ∀ (ids : List String) (acc : String) (e : OgsfxError),
      doc.concat_sources ids acc = .error e →
      ∃ n ∈ ids, doc.find_glsl_source n = .error e := by
  intro ids
  induction ids with
  | nil =>
    intro acc e h
    simp only [OGSFXShader.concat_sources] at h
    exact absurd h (by simp)
  | cons n rest ih =>
    intro acc e h
    cases hf : doc.find_glsl_source n with
    | error e0 =>
      simp only [OGSFXShader.concat_sources, hf, Except.error.injEq] at h
      exact ⟨n, by simp, by rw [hf, h]⟩
    | ok g =>
      simp only [OGSFXShader.concat_sources, hf] at h
      rcases ih (acc ++ g.code) e h with ⟨n2, hn2, hfind⟩
      exact ⟨n2, by simp [hn2], hfind⟩

theorem concat_sources_error_of_missing (doc : OGSFXShader) :
    ∀ (ids : List String) (acc n : String) (e : OgsfxError),
      n ∈ ids → doc.find_glsl_source n = .error e →
      ∃ e2, doc.concat_sources ids acc = .error e2 := by
  intro ids
  induction ids with
  | nil => intro acc n e hn; exact absurd hn (by simp)
  | cons n0 rest ih =>
    intro acc n e hn hfind
    cases hf : doc.find_glsl_source n0 with
    | error e0 =>
      exact ⟨e0, by simp only [OGSFXShader.concat_sources, hf]⟩
    | ok g =>
      have hne : n ≠ n0 := by
        intro hh
        rw [hh, hf] at hfind
        exact absurd hfind (by simp)
      have hmem : n ∈ rest := by
        rcases List.mem_cons.mp hn with hh | hh
        · exact absurd hh hne
        · exact hh
      rcases ih (acc ++ g.code) n e hmem hfind with ⟨e2, h2⟩
      exact ⟨e2, by simp only [OGSFXShader.concat_sources, hf]; exact h2⟩

theorem concat_sources_ok_of_all (doc : OGSFXShader) :
    ∀ (ids : List String) (acc : String),
      (∀ n ∈ ids, ∃ g, doc.find_glsl_source n = .ok g) →
      ∃ s, doc.concat_sources ids acc = .ok s := by
  intro ids
  induction ids with
  | nil => intro acc _; exact ⟨acc, rfl⟩
  | cons n rest ih =>
    intro acc hall
    rcases hall n (by simp) with ⟨g, hg⟩
    rcases ih (acc ++ g.code) (fun n2 hn2 => hall n2 (by simp [hn2])) with ⟨s, hs⟩
    exact ⟨s, by simp only [OGSFXShader.concat_sources, hg]; exact hs⟩

theorem get_glsl_passes_error_mem (doc : OGSFXShader) (sn : String) :
    ∀ (l : List Pass) (m0 : List (String × Option String)) (e : OgsfxError),
      doc.get_glsl_passes sn l m0 = .error e →
      ∃ p ∈ l, doc.get_glsl_pass sn p = .error e := by
  intro l
  induction l with
  | nil =>
    intro m0 e h
    simp only [OGSFXShader.get_glsl_passes] at h
    exact absurd h (by simp)
  | cons pss rest ih =>
    intro m0 e h
    cases heq : doc.get_glsl_pass sn pss with
    | error e0 =>
      simp only [OGSFXShader.get_glsl_passes, heq, Except.error.injEq] at h
      exact ⟨pss, by simp, by rw [heq, h]⟩
    | ok v =>
      simp only [OGSFXShader.get_glsl_passes, heq] at h
      rcases ih (dict_set m0 pss.name v) e h with ⟨p, hp, hpe⟩
      exact ⟨p, by simp [hp], hpe⟩

theorem get_glsl_passes_error_of_mem (doc : OGSFXShader) (sn : String) :
    ∀ (l : List Pass) (m0 : List (String × Option String)) (p : Pass)
      (e : OgsfxError),
      p ∈ l → doc.get_glsl_pass sn p = .error e →
      ∃ e2, doc.get_glsl_passes sn l m0 = .error e2 := by
  intro l
  induction l with
  | nil => intro m0 p e hp; exact absurd hp (by simp)
  | cons pss rest ih =>
    intro m0 p e hp hpe
    cases heq : doc.get_glsl_pass sn pss with
    | error e0 =>
      exact ⟨e0, by simp only [OGSFXShader.get_glsl_passes, heq]⟩
    | ok v =>
      have hmem : p ∈ rest := by
        rcases List.mem_cons.mp hp with rfl | hh
        · rw [heq] at hpe; exact absurd hpe (by simp)
        · exact hh
      rcases ih (dict_set m0 pss.name v) p e hmem hpe with ⟨e2, h2⟩
      exact ⟨e2, by simp only [OGSFXShader.get_glsl_passes, heq]; exact h2⟩

theorem get_glsl_passes_ok_of_all (doc : OGSFXShader) (sn : String) :
    ∀ (l : List Pass) (m0 : List (String × Option String)),
      (∀ p ∈ l, ∃ v, doc.get_glsl_pass sn p = .ok v) →
      ∃ m, doc.get_glsl_passes sn l m0 = .ok m := by
  intro l
  induction l with
  | nil => intro m0 _; exact ⟨m0, rfl⟩
  | cons pss rest ih =>
    intro m0 hall
    rcases hall pss (by simp) with ⟨v, hv⟩
    rcases ih (dict_set m0 pss.name v) (fun p hp => hall p (by simp [hp])) with ⟨m, hm⟩
    exact ⟨m, by simp only [OGSFXShader.get_glsl_passes, hv]; exact hm⟩

/-- When the per-pass loop body fails although both stage arguments
resolve, the failure is a missing GLSLBlock name listed by the pass's
stage, and the error is that name's "No GLSLShader named" error. -/
theorem get_glsl_pass_error_is_missing (doc : OGSFXShader) (sn : String)
    (p : Pass) (e : OgsfxError)
    (h : doc.get_glsl_pass sn p = .error e)
    (hio : ∀ stage, p.find_stage sn = some stage →
      (∃ io, doc.get_stage_argument_as_glsl stage.in_arg = .ok io) ∧
      (∃ io, doc.get_stage_argument_as_glsl stage.out_arg = .ok io)) :
    ∃ stage n, p.find_stage sn = some stage ∧ n ∈ stage.shader_ids ∧
      doc.find_glsl_source n = .error e ∧ e = .noGLSLShader n := by
  unfold OGSFXShader.get_glsl_pass at h
  cases hst : p.find_stage sn with
  | none =>
    simp only [hst] at h
    exact absurd h (by simp)
  | some stage =>
    simp only [hst] at h
    rcases hio stage hst with ⟨⟨io_in, hin⟩, ⟨io_out, hout⟩⟩
    simp only [hin, hout] at h
    cases hcat : doc.concat_sources stage.shader_ids
        ("#version 420 core\n" ++ doc.get_defines_as_glsl ++
          doc.get_uniforms_as_glsl ++ io_in ++ io_out) with
    | ok sh =>
      simp only [hcat] at h
      exact absurd h (by simp)
    | error e0 =>
      simp only [hcat, Except.error.injEq] at h
      rcases concat_sources_error_mem doc stage.shader_ids _ e0 hcat with
        ⟨n, hn, hfind⟩
      have he : e0 = .noGLSLShader n := find_glsl_source_error_eq hfind
      exact ⟨stage, n, rfl, hn, by rw [hfind, ← h], by rw [← h, he]⟩

/-- Conversely a resolvable stage body never
fails the loop body. -/
theorem get_glsl_pass_ok_of_resolvable (doc : OGSFXShader) (sn : String)
    (p : Pass)
    (hres : ∀ stage, p.find_stage sn = some stage →
      (∃ io, doc.get_stage_argument_as_glsl stage.in_arg = .ok io) ∧
      (∃ io, doc.get_stage_argument_as_glsl stage.out_arg = .ok io) ∧
      (∀ n ∈ stage.shader_ids, ∃ g, doc.find_glsl_source n = .ok g)) :
    ∃ v, doc.get_glsl_pass sn p = .ok v := by
  cases hst : p.find_stage sn with
  | none => exact ⟨none, get_glsl_pass_none hst⟩
  | some stage =>
    rcases hres stage hst with ⟨⟨io_in, hin⟩, ⟨io_out, hout⟩, hall⟩
    rcases concat_sources_ok_of_all doc stage.shader_ids
      ("#version 420 core\n" ++ doc.get_defines_as_glsl ++
        doc.get_uniforms_as_glsl ++ io_in ++ io_out) hall with ⟨s, hs⟩
    refine ⟨some s, ?_⟩
    simp only [OGSFXShader.get_glsl_pass, hst, hin, hout, hs]

/-- C2: a Document whose Stage references a GLSLBlock name defined
nowhere parses fine (`p_shader` is total — the parser performs no
resolution), and, provided the technique and the stage-argument streams
resolve, `generate` fails with the "No GLSLShader named" error exactly
when the requested (technique, stage) pair has a Stage listing an
unresolvable name. -/
theorem c2_lazy_resolution (blocks : List Block) (tn sn : String)
    (tech : Technique)
    (ht : (p_shader blocks).find_technique tn = .ok tech)
    (hstreams : ∀ p ∈ tech.passes, ∀ stage, p.find_stage sn = some stage →
      (∃ io, (p_shader blocks).get_stage_argument_as_glsl stage.in_arg = .ok io) ∧
      (∃ io, (p_shader blocks).get_stage_argument_as_glsl stage.out_arg = .ok io)) :
    (∃ p ∈ tech.passes, ∃ stage, p.find_stage sn = some stage ∧
      ∃ n ∈ stage.shader_ids,
        (p_shader blocks).find_glsl_source n = .error (.noGLSLShader n))
    ↔ ∃ n, (p_shader blocks).get_glsl tn sn = .error (.noGLSLShader n) := by
  constructor
  · rintro ⟨p, hp, stage, hst, n, hn, hfind⟩
    rcases hstreams p hp stage hst with ⟨⟨io_in, hin⟩, ⟨io_out, hout⟩⟩
    have hperr : ∃ e, (p_shader blocks).get_glsl_pass sn p = .error e := by
      rcases concat_sources_error_of_missing (p_shader blocks) stage.shader_ids
        ("#version 420 core\n" ++ (p_shader blocks).get_defines_as_glsl ++
          (p_shader blocks).get_uniforms_as_glsl ++ io_in ++ io_out) n
        (.noGLSLShader n) hn hfind with ⟨e2, hcat⟩
      refine ⟨e2, ?_⟩
      simp only [OGSFXShader.get_glsl_pass, hst, hin, hout, hcat]
    rcases hperr with ⟨e, hpe⟩
    rcases get_glsl_passes_error_of_mem (p_shader blocks) sn tech.passes [] p e
      hp hpe with ⟨e2, hfold⟩
    rcases get_glsl_passes_error_mem (p_shader blocks) sn tech.passes [] e2
      hfold with ⟨q, hq, hqe⟩
    rcases get_glsl_pass_error_is_missing (p_shader blocks) sn q e2 hqe
      (hstreams q hq) with ⟨_, n2, _, _, _, he2⟩
    refine ⟨n2, ?_⟩
    rw [get_glsl_eq_passes ht, hfold, he2]
  · rintro ⟨n, hge⟩
    rw [get_glsl_eq_passes ht] at hge
    rcases get_glsl_passes_error_mem (p_shader blocks) sn tech.passes [] _ hge
      with ⟨q, hq, hqe⟩
    rcases get_glsl_pass_error_is_missing (p_shader blocks) sn q _ hqe
      (hstreams q hq) with ⟨stage, n2, hst, hn2, hfind, heq2⟩
    have : n2 = n := by
      cases heq2
      rfl
    exact ⟨q, hq, stage, hst, n2, hn2, by rw [hfind, heq2]⟩

/-- The only pass of `exDocMissing`. -/
def exMissPass : Pass :=
  ⟨"p0", [⟨"VertexShader", ⟨"in", "APPDATA", none⟩, ⟨"out", "APPDATA", none⟩, ["Missing"]⟩]⟩

/-- The only stage of `exDocMissing`. -/
def exMissStage : Stage :=
  ⟨"VertexShader", ⟨"in", "APPDATA", none⟩, ⟨"out", "APPDATA", none⟩, ["Missing"]⟩

/-- C2 witness: the parsed `exBlocksMissing` document, whose stage lists
the undefined block `Missing`, makes `generate` fail with the
"No GLSLShader named" resolution error. -/
theorem c2_lazy_resolution_witness :
    ∃ n, (p_shader exBlocksMissing).get_glsl "Main" "VertexShader" =
      .error (.noGLSLShader n) := by
  refine (c2_lazy_resolution exBlocksMissing "Main" "VertexShader"
    ⟨"Main", [exMissPass]⟩ (by decide) ?_).mp
    ⟨exMissPass, by decide, exMissStage, by decide, "Missing", by decide, by decide⟩
  intro p hp stage hst
  have hp2 : p = exMissPass := by simpa using hp
  subst hp2
  have hst2 : exMissStage = stage := Option.some.inj hst
  subst hst2
  exact ⟨⟨"in vec3 co;\n", by decide⟩, ⟨"out vec3 co;\n", by decide⟩⟩

/-- Self-including file tree. -/
def fsSelf : List (String × List GLine) := [("a.glsl", [.incl "a.glsl"])]

/-- Mutually including pair. -/
def fsMutual : List (String × List GLine) :=
  [("a.glsl", [.text "// a\n", .incl "b.glsl"]), ("b.glsl", [.incl "a.glsl"])]


/-- Preprocessor fixture: `a.glsl` includes `b.glsl` then `c.glsl`;
version directives appear at top level, duplicated, and inside an
include. -/
def fsPP : List (String × List PLine) :=
  [ ("a.glsl", [.version "330 core", .text "A1\n", .incl "b.glsl", .incl "c.glsl", .version "330 core"])
  , ("b.glsl", [.text "B1\n", .version "110"])
  , ("c.glsl", [ .ifdef_dir "DEBUG", .text "C1\n", .els, .text "C2\n", .endif]) ]


/-! ## C3 / C4: embedded-code lexer findings -/

/-- C3: the claim states every `\x7b` / `\x7d` character in the block
moves the brace counter.  On the source lexer this fails: PLY's greedy
`t_glsl_nonspace` rule (`[^\s]+`) consumes a closing brace glued to a
non-space run, so in the block body ` a\x7d \x7d` the first `\x7d` never
reaches `t_glsl_rbrace` and the block closes only at the second one,
capturing ` a\x7d ` — while the claim's per-character counter closes at
the first, capturing ` a`. -/
theorem c3_brace_count_divergence :
    glslMode (" a\x7d \x7d".toList) 1 [] false = .token (" a\x7d ".toList) ∧
    glslModeClaim (" a\x7d \x7d".toList) 1 [] = .token (" a".toList) ∧
    lex_embedded ("GLSLShader VS \x7b a\x7d \x7d".toList) =
      some ("VS", .token (" a\x7d ".toList)) ∧
    (" a\x7d ".toList ≠ " a".toList) := by
  refine ⟨by decide, by decide, by decide, by decide⟩

/-- C4: on a source whose embedded block never balances its braces
before end of input, the lexer ends in the `.unterminated` outcome: PLY
reports end-of-stream, emitting no `GLSL` token and raising nothing —
it silently drops the block instead of raising the LexicalError the
spec requires. -/
theorem c4_unterminated_block_silent :
    glslMode (" void".toList) 1 [] false = .unterminated ∧
    lex_embedded ("GLSLShader VS \x7b void".toList) = some ("VS", .unterminated) := by
  refine ⟨by decide, by decide⟩

/-! ## C9: find_attributes -/

/-- C9: the source `find_attributes` iterates over `self.attributes` —
the `VertexStream`s themselves, not their `VaryingAttribute`s — and
reads `.input_specifier`, which `VertexStream` lacks; on the fixture
document (which has two streams) it raises `AttributeError`, while the
specified behavior (the filtered attributes across all streams) would
return the two `POSITION` attributes. -/
theorem c9_find_attributes_crash :
    exDoc.find_attributes "POSITION" =
      .error (.attributeError "VertexStream object has no attribute input_specifier") ∧
    find_attributes_spec exDoc "POSITION" =
      [⟨"vec3", "co", "POSITION"⟩, ⟨"vec4", "positionWS", "POSITION"⟩] := by
  refine ⟨by decide, by decide⟩

/-! ## C6: include recursion guard -/

theorem load_file_succ (fs : List (String × List GLine)) (f : Nat) :
    load_file fs (f + 1) = load_body fs (load_file fs f) := rfl

theorem foldl_load_step_error
    (recur : String → List (String × String) → Bool → Except String String)
    (file : String) (defines : List (String × String)) (is_include : Bool)
    (e : String) :
    ∀ l : List GLine,
      List.foldl (load_step recur file defines is_include) (.error e) l = .error e := by
  intro l
  induction l with
  | nil => rfl
  | cons x rest ih => rw [List.foldl_cons]; exact ih

/-- Lines that are not includes never fail the loop: they only extend
the accumulated text. -/
theorem foldl_load_step_pre_ok
    (recur : String → List (String × String) → Bool → Except String String)
    (file : String) (defines : List (String × String)) (is_include : Bool) :
    ∀ (pre : List GLine), (∀ l ∈ pre, ∀ r, l ≠ GLine.incl r) →
      ∀ st : String × Nat × Bool,
        ∃ st2, List.foldl (load_step recur file defines is_include) (.ok st) pre =
          .ok st2 := by
  intro pre
  induction pre with
  | nil => exact fun _ st => ⟨st, rfl⟩
  | cons l rest ih =>
    intro hpre st
    obtain ⟨shader, ln, hv⟩ := st
    have hrest : ∀ l ∈ rest, ∀ r, l ≠ GLine.incl r :=
      fun l2 hl2 => hpre l2 (by simp [hl2])
    cases l with
    | version full =>
      rw [List.foldl_cons]
      cases hb : (is_include || hv) with
      | true =>
        have : load_step recur file defines is_include
            (.ok (shader, ln, hv)) (GLine.version full) = .ok (shader ++ "\n", ln + 1, hv) := by
          simp [load_step, hb]
        rw [this]
        exact ih hrest _
      | false =>
        have : load_step recur file defines is_include
            (.ok (shader, ln, hv)) (GLine.version full) =
            .ok (shader ++ full ++ define_block defines ++
              "#line " ++ toString (ln + 1) ++ " \"" ++ basename file ++ "\"\n",
              ln + 1, true) := by
          simp [load_step, hb]
        rw [this]
        exact ih hrest _
    | text full =>
      rw [List.foldl_cons]
      exact ih hrest _
    | incl rel =>
      exact absurd rfl (hpre (GLine.incl rel) (by simp) rel)

/-- A file whose line list reaches a self-resolving include fails with
the recursion-guard error at every nesting budget. -/
theorem load_self_include_error (fs : List (String × List GLine))
    (file rel : String) (pre post : List GLine)
    (hlook : List.lookup file fs = some (pre ++ GLine.incl rel :: post))
    (hpre : ∀ l ∈ pre, ∀ r, l ≠ GLine.incl r)
    (hres : path_join (dirname file) rel = file) :
    ∀ (fuel : Nat) (defines : List (String × String)) (is_include : Bool),
      load_file fs fuel file defines is_include = .error recursion_error := by
  intro fuel
  induction fuel with
  | zero => intro defs isInc; rfl
  | succ f ih =>
    intro defs isInc
    show load_body fs (load_file fs f) file defs isInc = _
    unfold load_body
    simp only [hlook]
    rcases foldl_load_step_pre_ok (load_file fs f) file defs isInc pre hpre
      ("#line 1 \"" ++ basename file ++ "\"\n", (1 : Nat), false) with ⟨st2, hst2⟩
    rw [List.foldl_append, hst2, List.foldl_cons]
    obtain ⟨sh2, ln2, hv2⟩ := st2
    have hstep : load_step (load_file fs f) file defs isInc
        (.ok (sh2, ln2, hv2)) (GLine.incl rel) = .error recursion_error := by
      simp only [load_step, hres, ih [] true]
    rw [hstep, foldl_load_step_error]

/-- A mutually-including pair of files fails with the recursion-guard
error at every nesting budget, whichever of the two is processed. -/
theorem load_mutual_include_error (fs : List (String × List GLine))
    (a b relB relA : String) (preA postA preB postB : List GLine)
    (hla : List.lookup a fs = some (preA ++ GLine.incl relB :: postA))
    (hpreA : ∀ l ∈ preA, ∀ r, l ≠ GLine.incl r)
    (hresA : path_join (dirname a) relB = b)
    (hlb : List.lookup b fs = some (preB ++ GLine.incl relA :: postB))
    (hpreB : ∀ l ∈ preB, ∀ r, l ≠ GLine.incl r)
    (hresB : path_join (dirname b) relA = a) :
    ∀ (fuel : Nat) (defines : List (String × String)) (is_include : Bool),
      load_file fs fuel a defines is_include = .error recursion_error ∧
      load_file fs fuel b defines is_include = .error recursion_error := by
  intro fuel
  induction fuel with
  | zero => exact fun _ _ => ⟨rfl, rfl⟩
  | succ f ih =>
    intro defs isInc
    constructor
    · show load_body fs (load_file fs f) a defs isInc = _
      unfold load_body
      simp only [hla]
      rcases foldl_load_step_pre_ok (load_file fs f) a defs isInc preA hpreA
        ("#line 1 \"" ++ basename a ++ "\"\n", (1 : Nat), false) with ⟨st2, hst2⟩
      rw [List.foldl_append, hst2, List.foldl_cons]
      obtain ⟨sh2, ln2, hv2⟩ := st2
      have hstep : load_step (load_file fs f) a defs isInc
          (.ok (sh2, ln2, hv2)) (GLine.incl relB) = .error recursion_error := by
        simp only [load_step, hresA, (ih [] true).2]
      rw [hstep, foldl_load_step_error]
    · show load_body fs (load_file fs f) b defs isInc = _
      unfold load_body
      simp only [hlb]
      rcases foldl_load_step_pre_ok (load_file fs f) b defs isInc preB hpreB
        ("#line 1 \"" ++ basename b ++ "\"\n", (1 : Nat), false) with ⟨st2, hst2⟩
      rw [List.foldl_append, hst2, List.foldl_cons]
      obtain ⟨sh2, ln2, hv2⟩ := st2
      have hstep : load_step (load_file fs f) b defs isInc
          (.ok (sh2, ln2, hv2)) (GLine.incl relA) = .error recursion_error := by
        simp only [load_step, hresB, (ih [] true).1]
      rw [hstep, foldl_load_step_error]

/-- C6: a self-including file, and either member of a mutually-including
pair, make `load_shader` fail deterministically with the
"Include exceeds max depth. Might be a recursive inclusion" error once
nesting exceeds the depth bound of 100 (budget 101 counting the
top-level entry); `load_file` is a total function, so processing
terminates on every input rather than hanging or overflowing. -/
theorem c6_recursion_guard :
    (∀ (fs : List (String × List GLine)) (file rel : String)
        (pre post : List GLine) (defines : List (String × String)),
      List.lookup file fs = some (pre ++ GLine.incl rel :: post) →
      (∀ l ∈ pre, ∀ r, l ≠ GLine.incl r) →
      path_join (dirname file) rel = file →
      load_shader fs file defines = .error recursion_error) ∧
    (∀ (fs : List (String × List GLine)) (a b relB relA : String)
        (preA postA preB postB : List GLine) (defines : List (String × String)),
      List.lookup a fs = some (preA ++ GLine.incl relB :: postA) →
      (∀ l ∈ preA, ∀ r, l ≠ GLine.incl r) →
      path_join (dirname a) relB = b →
      List.lookup b fs = some (preB ++ GLine.incl relA :: postB) →
      (∀ l ∈ preB, ∀ r, l ≠ GLine.incl r) →
      path_join (dirname b) relA = a →
      load_shader fs a defines = .error recursion_error) := by
  constructor
  · intro fs file rel pre post defines hlook hpre hres
    exact load_self_include_error fs file rel pre post hlook hpre hres 101 defines false
  · intro fs a b relB relA preA postA preB postB defines hla hpreA hresA hlb hpreB hresB
    exact (load_mutual_include_error fs a b relB relA preA postA preB postB
      hla hpreA hresA hlb hpreB hresB 101 defines false).1

/-- C6 witness: the concrete self-including tree and the concrete
mutually-including pair both fail with the recursion-guard error. -/
theorem c6_recursion_guard_witness :
    load_shader fsSelf "a.glsl" [] = .error recursion_error ∧
    load_shader fsMutual "a.glsl" [] = .error recursion_error := by
  constructor
  · exact c6_recursion_guard.1 fsSelf "a.glsl" "a.glsl" [] [] []
      (by decide) (by simp) (by decide)
  · exact c6_recursion_guard.2 fsMutual "a.glsl" "b.glsl" "b.glsl" "a.glsl"
      [GLine.text "// a\n"] [] [] [] []
      (by decide) (by simp) (by decide) (by decide) (by simp) (by decide)

/-! ## C5 / C7: preprocessor output and includes ordering -/

theorem pp_file_succ (fs : List (String × List PLine)) (f : Nat) :
    pp_file fs (f + 1) = pp_body fs (pp_file fs f) := rfl

theorem foldl_pp_step_error
    (recur : String → PPState → List PLine → Except String (List PLine × PPState))
    (path : String) (e : String) :
    ∀ lines : List PLine,
      List.foldl (pp_step recur path) (.error e) lines = .error e := by
  intro lines
  induction lines with
  | nil => rfl
  | cons x rest ih => rw [List.foldl_cons]; exact ih

theorem ok_pair_inj {α β : Type} {a c : α} {b d : β}
    (h : (Except.ok (a, b) : Except String (α × β)) = .ok (c, d)) :
    c = a ∧ d = b := by
  cases h
  exact ⟨rfl, rfl⟩

/-- Case analysis of one processing step: the output is unchanged, or
one text line was emitted, or an active include delegated to the
nested processing of the included file. -/
theorem pp_step_out_shape
    {recur : String → PPState → List PLine → Except String (List PLine × PPState)}
    {path : String} {out : List PLine} {st : PPState} {outm : List PLine}
    {stm : PPState} {l : PLine}
    (h : pp_step recur path (.ok (out, st)) l = .ok (outm, stm)) :
    outm = out ∨ (∃ s, outm = out ++ [PLine.text s]) ∨
    (∃ p st1, recur p st1 out = .ok (outm, stm)) := by
  cases l with
  | text s =>
    simp only [pp_step] at h
    by_cases hact : pp_active st
    · rw [if_pos hact] at h
      exact Or.inr (Or.inl ⟨s, (ok_pair_inj h).1⟩)
    · rw [if_neg hact] at h
      exact Or.inl (ok_pair_inj h).1
  | incl p =>
    simp only [pp_step] at h
    by_cases hact : pp_active st
    · rw [if_pos hact] at h
      exact Or.inr (Or.inr ⟨_, _, h⟩)
    · rw [if_neg hact] at h
      exact Or.inl (ok_pair_inj h).1
  | define n =>
    simp only [pp_step] at h
    by_cases hact : pp_active st
    · rw [if_pos hact] at h; exact Or.inl (ok_pair_inj h).1
    · rw [if_neg hact] at h; exact Or.inl (ok_pair_inj h).1
  | undef_dir n =>
    simp only [pp_step] at h
    by_cases hact : pp_active st
    · rw [if_pos hact] at h; exact Or.inl (ok_pair_inj h).1
    · rw [if_neg hact] at h; exact Or.inl (ok_pair_inj h).1
  | ifdef_dir n => simp only [pp_step] at h; exact Or.inl (ok_pair_inj h).1
  | ifndef_dir n => simp only [pp_step] at h; exact Or.inl (ok_pair_inj h).1
  | els => simp only [pp_step] at h; exact Or.inl (ok_pair_inj h).1
  | endif => simp only [pp_step] at h; exact Or.inl (ok_pair_inj h).1
  | version s => simp only [pp_step] at h; exact Or.inl (ok_pair_inj h).1
  | other s => simp only [pp_step] at h; exact Or.inl (ok_pair_inj h).1

/-- Output lines processing adds beyond those already accumulated are
text lines. -/
def PPOutMono
    (recur : String → PPState → List PLine → Except String (List PLine × PPState)) :
    Prop :=
  ∀ path st out out2 st2, recur path st out = .ok (out2, st2) →
    ∀ l ∈ out2, l ∈ out ∨ ∃ s, l = PLine.text s

theorem foldl_pp_step_out_mono
    {recur : String → PPState → List PLine → Except String (List PLine × PPState)}
    (hrec : PPOutMono recur) (path : String) :
    ∀ (lines : List PLine) (out : List PLine) (st : PPState)
      (out2 : List PLine) (st2 : PPState),
      List.foldl (pp_step recur path) (.ok (out, st)) lines = .ok (out2, st2) →
      ∀ l ∈ out2, l ∈ out ∨ ∃ s, l = PLine.text s := by
  intro lines
  induction lines with
  | nil =>
    intro out st out2 st2 h
    rw [← (ok_pair_inj h).1]
    exact fun l hl => Or.inl hl
  | cons l rest ih =>
    intro out st out2 st2 h
    rw [List.foldl_cons] at h
    cases hstep : pp_step recur path (.ok (out, st)) l with
    | error e =>
      rw [hstep, foldl_pp_step_error] at h
      exact absurd h (by simp)
    | ok p2 =>
      obtain ⟨outm, stm⟩ := p2
      rw [hstep] at h
      have step_out : ∀ l2 ∈ outm, l2 ∈ out ∨ ∃ s, l2 = PLine.text s := by
        rcases pp_step_out_shape hstep with heq | ⟨s, heq⟩ | ⟨p, st1, hrq⟩
        · rw [heq]; exact fun l2 hl2 => Or.inl hl2
        · rw [heq]
          intro l2 hl2
          rcases List.mem_append.mp hl2 with hin | hs
          · exact Or.inl hin
          · exact Or.inr ⟨s, by simpa using hs⟩
        · exact hrec _ _ _ _ _ hrq
      intro l2 hl2
      rcases ih outm stm out2 st2 h l2 hl2 with hin | htext
      · exact step_out l2 hin
      · exact Or.inr htext

theorem pp_body_out_mono (fs : List (String × List PLine))
    {recur : String → PPState → List PLine → Except String (List PLine × PPState)}
    (hrec : PPOutMono recur) : PPOutMono (pp_body fs recur) := by
  intro path st out out2 st2 h
  unfold pp_body at h
  cases hlook : List.lookup path fs with
  | none =>
    simp only [hlook] at h
    exact absurd h (by simp)
  | some lines =>
    simp only [hlook] at h
    exact foldl_pp_step_out_mono hrec path lines out st out2 st2 h

theorem pp_file_out_mono (fs : List (String × List PLine)) :
    ∀ fuel, PPOutMono (pp_file fs fuel) := by
  intro fuel
  induction fuel with
  | zero =>
    intro path st out out2 st2 h
    exact absurd h (by simp [pp_file])
  | succ f ih => exact pp_body_out_mono fs ih

/-- C5: every `#version` line anywhere in preprocessed input — top of
file, inside an included file, or duplicated — is absent from the
Preprocessor's output: the source `on_directive_handle` removes it
(`OutputDirective(Action.IgnoreAndRemove)`), and only non-directive
text lines are ever emitted. -/
theorem c5_version_stripped (fs : List (String × List PLine)) (fuel : Nat)
    (predefines : List String) (path : String) (out : List PLine) (st : PPState)
    (h : parse_file fs fuel predefines path = .ok (out, st)) :
    out.all (fun l => !l.isVersion) = true := by
  unfold parse_file at h
  have hAll := pp_file_out_mono fs fuel path ⟨predefines, [path], [], []⟩ [] out st h
  refine List.all_eq_true.mpr ?_
  intro l hl
  rcases hAll l hl with hin | ⟨s, rfl⟩
  · exact absurd hin (by simp)
  · rfl

/-- C5 witness: `fsPP` carries a top-of-file version, a duplicate, and
one inside an include; none reaches the output. -/
theorem c5_version_stripped_witness :
    ([PLine.text "A1\n", PLine.text "B1\n", PLine.text "C1\n"] : List PLine).all
      (fun l => !l.isVersion) = true :=
  c5_version_stripped fsPP 100 ["DEBUG"] "a.glsl"
    [PLine.text "A1\n", PLine.text "B1\n", PLine.text "C1\n"]
    ⟨["DEBUG"], ["a.glsl", "b.glsl", "c.glsl"], [], ["b.glsl", "c.glsl"]⟩
    (by decide)

/-- Folding `include_to_id` over an encounter sequence is exactly
"append the new elements in first-encounter order". -/
theorem foldl_include_firstNew : ∀ (tr acc : List String),
    List.foldl (fun a p => (include_to_id a p).2) acc tr = acc ++ firstNew acc tr := by
  intro tr
  induction tr with
  | nil => intro acc; simp [firstNew]
  | cons x xs ih =>
    intro acc
    rw [List.foldl_cons]
    by_cases hx : x ∈ acc
    · have h2 : (include_to_id acc x).2 = acc := by simp [include_to_id, hx]
      rw [h2, ih]
      simp [firstNew, hx]
    · have h2 : (include_to_id acc x).2 = acc ++ [x] := by simp [include_to_id, hx]
      rw [h2, ih]
      simp [firstNew, hx, List.append_assoc]

theorem include_to_id_nodup {acc : List String} {x : String} (h : acc.Nodup) :
    ((include_to_id acc x).2).Nodup := by
  unfold include_to_id
  by_cases hx : x ∈ acc
  · simpa [hx] using h
  · have h2 : ((if acc.contains x then (List.indexOf x acc, acc)
        else (acc.length, acc ++ [x])).2) = acc ++ [x] := by simp [hx]
    rw [h2]
    refine List.Nodup.append h (List.nodup_singleton x) ?_
    intro a ha ha2
    rw [List.mem_singleton.mp ha2] at ha
    exact hx ha

theorem foldl_include_nodup : ∀ (tr acc : List String), acc.Nodup →
    (List.foldl (fun a p => (include_to_id a p).2) acc tr).Nodup := by
  intro tr
  induction tr with
  | nil => intro acc h; exact h
  | cons x xs ih =>
    intro acc h
    rw [List.foldl_cons]
    exact ih _ (include_to_id_nodup h)

/-- Invariant of one processing level: the trace grows by a suffix of
newly encountered include paths, and `includes` is the
`include_to_id` fold of exactly those encounters. -/
def PPIncInv
    (recur : String → PPState → List PLine → Except String (List PLine × PPState)) :
    Prop :=
  ∀ path st out out2 st2, recur path st out = .ok (out2, st2) →
    ∃ delta, st2.trace = st.trace ++ delta ∧
      st2.includes = List.foldl (fun a p => (include_to_id a p).2) st.includes delta

/-- One step either keeps trace and includes, or is an active include:
one `include_to_id` insertion, one trace entry, then the nested file. -/
theorem pp_step_state_shape
    {recur : String → PPState → List PLine → Except String (List PLine × PPState)}
    {path : String} {out : List PLine} {st : PPState} {outm : List PLine}
    {stm : PPState} {l : PLine}
    (h : pp_step recur path (.ok (out, st)) l = .ok (outm, stm)) :
    (stm.trace = st.trace ∧ stm.includes = st.includes) ∨
    (∃ p, recur p { st with includes := (include_to_id st.includes p).2
                          , trace := st.trace ++ [p] } out = .ok (outm, stm)) := by
  cases l with
  | text s =>
    simp only [pp_step] at h
    by_cases hact : pp_active st
    · rw [if_pos hact] at h
      have h2 := (ok_pair_inj h).2
      exact Or.inl ⟨by rw [h2], by rw [h2]⟩
    · rw [if_neg hact] at h
      have h2 := (ok_pair_inj h).2
      exact Or.inl ⟨by rw [h2], by rw [h2]⟩
  | incl p =>
    simp only [pp_step] at h
    by_cases hact : pp_active st
    · rw [if_pos hact] at h
      exact Or.inr ⟨path_join (dirname path) p, h⟩
    · rw [if_neg hact] at h
      have h2 := (ok_pair_inj h).2
      exact Or.inl ⟨by rw [h2], by rw [h2]⟩
  | define n =>
    simp only [pp_step] at h
    by_cases hact : pp_active st
    · rw [if_pos hact] at h
      have h2 := (ok_pair_inj h).2
      exact Or.inl ⟨by rw [h2], by rw [h2]⟩
    · rw [if_neg hact] at h
      have h2 := (ok_pair_inj h).2
      exact Or.inl ⟨by rw [h2], by rw [h2]⟩
  | undef_dir n =>
    simp only [pp_step] at h
    by_cases hact : pp_active st
    · rw [if_pos hact] at h
      have h2 := (ok_pair_inj h).2
      exact Or.inl ⟨by rw [h2], by rw [h2]⟩
    · rw [if_neg hact] at h
      have h2 := (ok_pair_inj h).2
      exact Or.inl ⟨by rw [h2], by rw [h2]⟩
  | ifdef_dir n =>
    simp only [pp_step] at h
    have h2 := (ok_pair_inj h).2
    exact Or.inl ⟨by rw [h2], by rw [h2]⟩
  | ifndef_dir n =>
    simp only [pp_step] at h
    have h2 := (ok_pair_inj h).2
    exact Or.inl ⟨by rw [h2], by rw [h2]⟩
  | els =>
    simp only [pp_step] at h
    have h2 := (ok_pair_inj h).2
    exact Or.inl ⟨by rw [h2], by rw [h2]⟩
  | endif =>
    simp only [pp_step] at h
    have h2 := (ok_pair_inj h).2
    exact Or.inl ⟨by rw [h2], by rw [h2]⟩
  | version s =>
    simp only [pp_step] at h
    have h2 := (ok_pair_inj h).2
    exact Or.inl ⟨by rw [h2], by rw [h2]⟩
  | other s =>
    simp only [pp_step] at h
    have h2 := (ok_pair_inj h).2
    exact Or.inl ⟨by rw [h2], by rw [h2]⟩

theorem foldl_pp_step_inc_inv
    {recur : String → PPState → List PLine → Except String (List PLine × PPState)}
    (hrec : PPIncInv recur) (path : String) :
    ∀ (lines : List PLine) (out : List PLine) (st : PPState)
      (out2 : List PLine) (st2 : PPState),
      List.foldl (pp_step recur path) (.ok (out, st)) lines = .ok (out2, st2) →
      ∃ delta, st2.trace = st.trace ++ delta ∧
        st2.includes = List.foldl (fun a p => (include_to_id a p).2) st.includes delta := by
  intro lines
  induction lines with
  | nil =>
    intro out st out2 st2 h
    have h2 := (ok_pair_inj h).2
    exact ⟨[], by rw [h2]; simp, by rw [h2]; rfl⟩
  | cons l rest ih =>
    intro out st out2 st2 h
    rw [List.foldl_cons] at h
    cases hstep : pp_step recur path (.ok (out, st)) l with
    | error e =>
      rw [hstep, foldl_pp_step_error] at h
      exact absurd h (by simp)
    | ok p2 =>
      obtain ⟨outm, stm⟩ := p2
      rw [hstep] at h
      rcases ih outm stm out2 st2 h with ⟨delta2, htr2, hinc2⟩
      rcases pp_step_state_shape hstep with ⟨ht, hi⟩ | ⟨p, hrq⟩
      · exact ⟨delta2, by rw [htr2, ht], by rw [hinc2, hi]⟩
      · rcases hrec _ _ _ _ _ hrq with ⟨delta1, htr1, hinc1⟩
        refine ⟨p :: (delta1 ++ delta2), ?_, ?_⟩
        · rw [htr2, htr1]
          simp [List.append_assoc]
        · rw [hinc2, hinc1, List.foldl_cons, List.foldl_append]

theorem pp_body_inc_inv (fs : List (String × List PLine))
    {recur : String → PPState → List PLine → Except String (List PLine × PPState)}
    (hrec : PPIncInv recur) : PPIncInv (pp_body fs recur) := by
  intro path st out out2 st2 h
  unfold pp_body at h
  cases hlook : List.lookup path fs with
  | none =>
    simp only [hlook] at h
    exact absurd h (by simp)
  | some lines =>
    simp only [hlook] at h
    exact foldl_pp_step_inc_inv hrec path lines out st out2 st2 h

theorem pp_file_inc_inv (fs : List (String × List PLine)) :
    ∀ fuel, PPIncInv (pp_file fs fuel) := by
  intro fuel
  induction fuel with
  | zero =>
    intro path st out out2 st2 h
    exact absurd h (by simp [pp_file])
  | succ f ih => exact pp_body_inc_inv fs ih

/-- C7: after a successful `parse_file`, `includes` is the parsed
file's own path followed by the transitively included paths in the
order each was first encountered (the trace of include encounters,
deduplicated to first occurrences): the `include_to_id` fold equals
`firstNew`, the sequence is duplicate-free, and the head is the file's
own path. -/
theorem c7_includes_first_encounter (fs : List (String × List PLine))
    (fuel : Nat) (predefines : List String) (path : String)
    (out : List PLine) (st : PPState)
    (h : parse_file fs fuel predefines path = .ok (out, st)) :
    st.includes = path :: firstNew [path] st.trace ∧
    st.includes.Nodup ∧ st.includes.head? = some path := by
  unfold parse_file at h
  rcases pp_file_inc_inv fs fuel path ⟨predefines, [path], [], []⟩ [] out st h with
    ⟨delta, htr, hinc⟩
  have hdelta : delta = st.trace := by simpa using htr.symm
  subst hdelta
  refine ⟨?_, ?_, ?_⟩
  · rw [hinc, foldl_include_firstNew]
    rfl
  · rw [hinc]
    exact foldl_include_nodup st.trace [path] (by simp)
  · rw [hinc, foldl_include_firstNew]
    rfl

/-- C7 witness: the spec scenario — `a.glsl` includes `b.glsl` then
`c.glsl`; `includes == [a, b, c]`, duplicate-free, own path first. -/
theorem c7_includes_first_encounter_witness :
    (["a.glsl", "b.glsl", "c.glsl"] : List String) =
      "a.glsl" :: firstNew ["a.glsl"] ["b.glsl", "c.glsl"] ∧
    (["a.glsl", "b.glsl", "c.glsl"] : List String).Nodup ∧
    (["a.glsl", "b.glsl", "c.glsl"] : List String).head? = some "a.glsl" :=
  c7_includes_first_encounter fsPP 100 ["DEBUG"] "a.glsl"
    [PLine.text "A1\n", PLine.text "B1\n", PLine.text "C1\n"]
    ⟨["DEBUG"], ["a.glsl", "b.glsl", "c.glsl"], [], ["b.glsl", "c.glsl"]⟩
    (by decide)

end Scratchpad
